import Mathlib

set_option maxRecDepth 8192

/-!
Verification of the perceptual image-hashing and duplicate-detection subsystem
(the Duplicate Finder tool) of the image-utilities application.

The embedding below is a shallow model of `src/src/tools/DuplicateFinder.tsx`:

* `toGrayscale` / `generateImageHash` model the pixel loop of
  `generateImageHash` (lines 54-72): the flat RGBA byte array is consumed four
  bytes at a time, each sample is turned into a luminance value with weights
  0.299 / 0.587 / 0.114, and each sample produces the character '1' when its
  luminance is at least the arithmetic mean, else '0'.  JavaScript floating
  point arithmetic is idealised as exact rational arithmetic (ℚ).
* `countDifferences` / `calculateSimilarity` model `calculateSimilarity`
  (lines 85-91): positions are scanned along the first hash, a position counts
  as a difference when the two hashes disagree there (an out-of-range access of
  the second hash compares unequal to any character, as in JavaScript).
* `scanGroup` / `findGroupsAux` / `findDuplicates` model `findDuplicates`
  (lines 94-123).  Records are represented by their positions in the input
  list and groups are lists of positions; the mutable `processed` set is
  threaded explicitly as a list.  The source hard-codes the threshold 90; the
  spec's contract `findDuplicateGroups(records, threshold = 90.0)` exposes it
  as a parameter, so the embedding takes it as a parameter and the source
  behaviour is the instance `threshold = 90`.
* `FinderState` / `hashBatch` / `handleFiles` model the batch handler
  `handleFiles` (lines 126-162): the input models the list of already
  mime-filtered files, each paired with its decode outcome (`none` models the
  `img.onerror` path of lines 75-78, which rejects the promise).  The
  surrounding `try`/`catch` leaves the component state unchanged on failure
  (the `catch` only logs and alerts).
-/

namespace DuplicateFinder

/-- Lines 58-62 of `generateImageHash`: walk the flat RGBA byte array four
bytes at a time and turn each sample into its luminance
`R * 0.299 + G * 0.587 + B * 0.114` (alpha ignored).  A trailing fragment of
fewer than four bytes (which never occurs for RGBA data) yields no sample. -/
def toGrayscale : List ℕ → List ℚ
  | r :: g :: b :: _ :: rest =>
      ((r : ℚ) * (299 / 1000) + (g : ℚ) * (587 / 1000) + (b : ℚ) * (114 / 1000))
        :: toGrayscale rest
  | _ => []

/-- Lines 54-72 of the source: compute the per-sample luminances, their
arithmetic mean, and one character per sample, '1' when the luminance is
greater than or equal to the mean and '0' otherwise, in scan order. -/
def generateImageHash (pixels : List ℕ) : List Char :=
  let grayscale := toGrayscale pixels
  let total := grayscale.sum
  let average := total / (grayscale.length : ℚ)
  grayscale.map fun gray => if gray ≥ average then '1' else '0'

/-- Lines 86-89 of `calculateSimilarity`: the number of positions `i` below
`hash1.length` at which the two hashes differ; a position beyond the end of
`hash2` differs from every character of `hash1` (JavaScript compares the
character against `undefined`). -/
def countDifferences (hash1 hash2 : List Char) : ℕ :=
  (List.range hash1.length).countP fun i => decide (hash1[i]? ≠ hash2[i]?)

/-- Lines 85-91 of the source: similarity percentage
`((length - differences) / length) * 100`, over the length of the first
hash. -/
def calculateSimilarity (hash1 hash2 : List Char) : ℚ :=
  (((hash1.length : ℚ) - (countDifferences hash1 hash2 : ℚ)) / (hash1.length : ℚ)) * 100

/-- Inner loop of `findDuplicates` (lines 104-114): scan the positions after
the seed `i` in input order; a position already in `processed` is skipped, a
position whose similarity to the seed reaches the threshold joins the group
and is marked processed.  Returns the joined positions (in scan order) and
the final processed set. -/
def scanGroup (sim : ℕ → ℕ → ℚ) (threshold : ℚ) (i : ℕ) (processed : List ℕ) :
    List ℕ → List ℕ × List ℕ
  | [] => ([], processed)
  | j :: rest =>
      if j ∈ processed then scanGroup sim threshold i processed rest
      else if threshold ≤ sim i j then
        let s := scanGroup sim threshold i (j :: processed) rest
        (j :: s.1, s.2)
      else scanGroup sim threshold i processed rest

/-- Outer loop of `findDuplicates` (lines 98-120): each unprocessed position
seeds a candidate group consisting of itself and the later positions gathered
by `scanGroup`; the group is emitted only when it has more than one member.
The processed set produced by the scan is threaded into the rest of the
iteration in either case. -/
def findGroupsAux (sim : ℕ → ℕ → ℚ) (threshold : ℚ) (processed : List ℕ) :
    List ℕ → List (List ℕ)
  | [] => []
  | i :: rest =>
      if i ∈ processed then findGroupsAux sim threshold processed rest
      else
        let s := scanGroup sim threshold i (i :: processed) rest
        let group := i :: s.1
        if 1 < group.length then group :: findGroupsAux sim threshold s.2 rest
        else findGroupsAux sim threshold s.2 rest

/-- Lines 94-123 of the source, with records represented by their positions in
`imageList` and each group given as the list of member positions (seed first).
The similarity of two members is computed from their hashes exactly as in
line 107.  The threshold is the spec contract's parameter; the source runs
this at 90. -/
def findDuplicates (imageList : List (List Char)) (threshold : ℚ) : List (List ℕ) :=
  findGroupsAux
    (fun i j => calculateSimilarity (imageList.getD i []) (imageList.getD j []))
    threshold [] (List.range imageList.length)

/-- The candidate group seeded at position 0 (the first record): the seed
followed by the members collected by the inner scan over the remaining
positions, starting from the processed set `[0]` exactly as in the first outer
iteration of `findDuplicates`. -/
def firstSeedGroup (imageList : List (List Char)) (threshold : ℚ) : List ℕ :=
  0 :: (scanGroup
    (fun i j => calculateSimilarity (imageList.getD i []) (imageList.getD j []))
    threshold 0 [0] ((List.range imageList.length).drop 1)).1

/-- The component state observable by the duplicate-finder claims: the list of
(identifier, fingerprint) records and the current duplicate groups.  This
models the `images` and `duplicateGroups` state of the component. -/
structure FinderState where
  images : List (ℕ × List Char)
  duplicateGroups : List (List ℕ)
deriving DecidableEq

/-- The fingerprinting loop of `handleFiles` (lines 140-148): files are
processed in order and each decode outcome of `generateImageHash` is awaited;
the first failed decode (`none`) rejects, which aborts the whole loop and
discards every record built so far (the `catch` is outside the loop). -/
def hashBatch : List (ℕ × Option (List Char)) → Option (List (ℕ × List Char))
  | [] => some []
  | (_, none) :: _ => none
  | (ident, some h) :: rest => (hashBatch rest).map fun tl => (ident, h) :: tl

/-- Lines 126-162 of the source: an empty selection alerts and returns; a
successful batch appends the new records to the existing ones and recomputes
the duplicate groups at threshold 90; a batch in which any decode fails takes
the `catch` path, which alerts generically and leaves the state unchanged. -/
def handleFiles (st : FinderState) (files : List (ℕ × Option (List Char))) : FinderState :=
  if files.isEmpty then st
  else
    match hashBatch files with
    | none => st
    | some newImages =>
        let allImages := st.images ++ newImages
        { images := allImages
          duplicateGroups := findDuplicates (allImages.map Prod.snd) 90 }

/-- Following the spec's words (§4.1 step 2): the luminance of sample `i` of
the flat RGBA array, `0.299*R + 0.587*G + 0.114*B` with alpha ignored. -/
def sampleLuminance (pixels : List ℕ) (i : ℕ) : ℚ :=
  (pixels.getD (4 * i) 0 : ℚ) * (299 / 1000)
    + (pixels.getD (4 * i + 1) 0 : ℚ) * (587 / 1000)
    + (pixels.getD (4 * i + 2) 0 : ℚ) * (114 / 1000)

/-- Following the spec's words (§4.1 step 3): the arithmetic mean luminance
over the 64 samples of the canonical 8x8 grid. -/
def meanLuminance (pixels : List ℕ) : ℚ :=
  (((List.range 64).map (sampleLuminance pixels)).sum) / 64

/-- Following the spec's words: the Hamming distance of two fingerprints, the
count of bit positions at which they differ. -/
def hammingDistance (a b : List Char) : ℕ :=
  (a.zip b).countP fun p => decide (p.1 ≠ p.2)

/-! Concrete fingerprints used by the witnesses and counterexamples. -/

/-- The all-zero 64-bit fingerprint. -/
def exZeros : List Char := List.replicate 64 '0'

/-- A fingerprint at Hamming distance 6 from `exZeros` (similarity 90.625). -/
def exSix : List Char := List.replicate 6 '1' ++ List.replicate 58 '0'

/-- A fingerprint at Hamming distance 10 from `exZeros` (similarity 84.375)
and distance 4 from `exSix` (similarity 93.75). -/
def exTen : List Char := List.replicate 10 '1' ++ List.replicate 54 '0'

/-- A fingerprint at Hamming distance 4 from `exZeros` (similarity 93.75). -/
def exFour : List Char := List.replicate 4 '1' ++ List.replicate 60 '0'

/-- A fingerprint at Hamming distance 4 from `exZeros` (similarity 93.75) but
at distance 8 from `exFour` (similarity 87.5). -/
def exMid : List Char :=
  List.replicate 4 '0' ++ List.replicate 4 '1' ++ List.replicate 56 '0'

/-- Three records whose pairwise similarities are 90.625 (0-1), 84.375 (0-2)
and 93.75 (1-2). -/
def exListA : List (List Char) := [exZeros, exSix, exTen]

/-- Three records whose pairwise similarities are 93.75 (0-1), 93.75 (0-2)
and 87.5 (1-2). -/
def exListB : List (List Char) := [exZeros, exFour, exMid]

/-- Two records with identical fingerprints (similarity 100). -/
def exPair : List (List Char) := [exZeros, exZeros]

/-- A uniform grey image: every RGBA byte is 7 (luminance 7 at every
sample). -/
def exPixA : List ℕ := List.replicate 256 7

/-- A brighter uniform grey image: every RGBA byte is 50 (luminance 50 at
every sample). -/
def exPixB : List ℕ := List.replicate 256 50

/-- A five-image batch in which the third image fails to decode. -/
def exBatch : List (ℕ × Option (List Char)) :=
  [(1, some exZeros), (2, some exZeros), (3, none), (4, some exFour), (5, some exFour)]


/-! Unfolding equations for the two loops. -/

section Loops

variable (sim : ℕ → ℕ → ℚ) (t : ℚ)

lemma scanGroup_nil (i : ℕ) (ps : List ℕ) : scanGroup sim t i ps [] = ([], ps) := rfl

lemma scanGroup_cons_mem {j : ℕ} {ps : List ℕ} (i : ℕ) (rest : List ℕ) (h : j ∈ ps) :
    scanGroup sim t i ps (j :: rest) = scanGroup sim t i ps rest := by
  simp [scanGroup, h]

lemma scanGroup_cons_near {j : ℕ} {ps : List ℕ} {i : ℕ} (rest : List ℕ)
    (h : j ∉ ps) (hs : t ≤ sim i j) :
    scanGroup sim t i ps (j :: rest) =
      (j :: (scanGroup sim t i (j :: ps) rest).1, (scanGroup sim t i (j :: ps) rest).2) := by
  simp [scanGroup, h, hs]

lemma scanGroup_cons_far {j : ℕ} {ps : List ℕ} {i : ℕ} (rest : List ℕ)
    (h : j ∉ ps) (hs : ¬ t ≤ sim i j) :
    scanGroup sim t i ps (j :: rest) = scanGroup sim t i ps rest := by
  simp [scanGroup, h, hs]

lemma findGroupsAux_nil (ps : List ℕ) : findGroupsAux sim t ps [] = [] := rfl

lemma findGroupsAux_cons_mem {i : ℕ} {ps : List ℕ} (rest : List ℕ) (h : i ∈ ps) :
    findGroupsAux sim t ps (i :: rest) = findGroupsAux sim t ps rest := by
  simp [findGroupsAux, h]

lemma findGroupsAux_cons_big {i : ℕ} {ps : List ℕ} (rest : List ℕ) (h : i ∉ ps)
    (hne : (scanGroup sim t i (i :: ps) rest).1 ≠ []) :
    findGroupsAux sim t ps (i :: rest) =
      (i :: (scanGroup sim t i (i :: ps) rest).1) ::
        findGroupsAux sim t (scanGroup sim t i (i :: ps) rest).2 rest := by
  have hp : 0 < (scanGroup sim t i (i :: ps) rest).1.length := List.length_pos.mpr hne
  simp [findGroupsAux, h, Nat.lt_succ_iff, hp, Nat.succ_le_of_lt hp]

lemma findGroupsAux_cons_small {i : ℕ} {ps : List ℕ} (rest : List ℕ) (h : i ∉ ps)
    (hne : (scanGroup sim t i (i :: ps) rest).1 = []) :
    findGroupsAux sim t ps (i :: rest) =
      findGroupsAux sim t (scanGroup sim t i (i :: ps) rest).2 rest := by
  simp [findGroupsAux, h, hne]

/-! Invariants of the inner scan. -/

lemma scanGroup_mem_sim (i : ℕ) :
    ∀ (js ps : List ℕ), ∀ x ∈ (scanGroup sim t i ps js).1, t ≤ sim i x := by
  intro js
  induction js with
  | nil => intro ps x hx; simp [scanGroup_nil] at hx
  | cons j rest ih =>
      intro ps x hx
      by_cases hj : j ∈ ps
      · rw [scanGroup_cons_mem sim t i rest hj] at hx
        exact ih ps x hx
      · by_cases hs : t ≤ sim i j
        · rw [scanGroup_cons_near sim t rest hj hs] at hx
          rcases List.mem_cons.mp hx with hx | hx
          · exact hx ▸ hs
          · exact ih (j :: ps) x hx
        · rw [scanGroup_cons_far sim t rest hj hs] at hx
          exact ih ps x hx

lemma scanGroup_subset (i : ℕ) :
    ∀ (js ps : List ℕ), ∀ x ∈ (scanGroup sim t i ps js).1, x ∈ js := by
  intro js
  induction js with
  | nil => intro ps x hx; simp [scanGroup_nil] at hx
  | cons j rest ih =>
      intro ps x hx
      by_cases hj : j ∈ ps
      · rw [scanGroup_cons_mem sim t i rest hj] at hx
        exact List.mem_cons_of_mem _ (ih ps x hx)
      · by_cases hs : t ≤ sim i j
        · rw [scanGroup_cons_near sim t rest hj hs] at hx
          rcases List.mem_cons.mp hx with hx | hx
          · exact hx ▸ List.mem_cons_self j rest
          · exact List.mem_cons_of_mem _ (ih (j :: ps) x hx)
        · rw [scanGroup_cons_far sim t rest hj hs] at hx
          exact List.mem_cons_of_mem _ (ih ps x hx)

lemma scanGroup_fresh_nodup (i : ℕ) :
    ∀ (js ps : List ℕ),
      (∀ x ∈ (scanGroup sim t i ps js).1, x ∉ ps) ∧ (scanGroup sim t i ps js).1.Nodup := by
  intro js
  induction js with
  | nil => intro ps; simp [scanGroup_nil]
  | cons j rest ih =>
      intro ps
      by_cases hj : j ∈ ps
      · rw [scanGroup_cons_mem sim t i rest hj]
        exact ih ps
      · by_cases hs : t ≤ sim i j
        · rw [scanGroup_cons_near sim t rest hj hs]
          obtain ⟨ihf, ihn⟩ := ih (j :: ps)
          constructor
          · intro x hx
            rcases List.mem_cons.mp hx with hx | hx
            · exact hx ▸ hj
            · intro hxp
              exact ihf x hx (List.mem_cons_of_mem _ hxp)
          · refine List.nodup_cons.mpr ⟨fun hjm => ?_, ihn⟩
            exact ihf j hjm (List.mem_cons_self j ps)
        · rw [scanGroup_cons_far sim t rest hj hs]
          exact ih ps

lemma scanGroup_mem_snd (i : ℕ) :
    ∀ (js ps x : _), x ∈ (scanGroup sim t i ps js).2 ↔
      x ∈ ps ∨ x ∈ (scanGroup sim t i ps js).1 := by
  intro js
  induction js with
  | nil => intro ps x; simp [scanGroup_nil]
  | cons j rest ih =>
      intro ps x
      by_cases hj : j ∈ ps
      · rw [scanGroup_cons_mem sim t i rest hj]
        exact ih ps x
      · by_cases hs : t ≤ sim i j
        · rw [scanGroup_cons_near sim t rest hj hs]
          rw [ih (j :: ps) x]
          simp only [List.mem_cons]
          tauto
        · rw [scanGroup_cons_far sim t rest hj hs]
          exact ih ps x

lemma scanGroup_eq_filter (i : ℕ) :
    ∀ (js ps : List ℕ), js.Nodup → (∀ j ∈ js, j ∉ ps) →
      (scanGroup sim t i ps js).1 = js.filter fun j => decide (t ≤ sim i j) := by
  intro js
  induction js with
  | nil => intro ps _ _; simp [scanGroup_nil]
  | cons j rest ih =>
      intro ps hnd hfresh
      have hj : j ∉ ps := hfresh j (List.mem_cons_self j rest)
      obtain ⟨hjr, hndr⟩ := List.nodup_cons.mp hnd
      by_cases hs : t ≤ sim i j
      · rw [scanGroup_cons_near sim t rest hj hs]
        have hrest : ∀ x ∈ rest, x ∉ (j :: ps) := by
          intro x hx
          simp only [List.mem_cons, not_or]
          exact ⟨fun he => hjr (he ▸ hx), hfresh x (List.mem_cons_of_mem _ hx)⟩
        rw [ih (j :: ps) hndr hrest]
        simp [List.filter_cons, hs]
      · rw [scanGroup_cons_far sim t rest hj hs]
        rw [ih ps hndr fun x hx => hfresh x (List.mem_cons_of_mem _ hx)]
        simp [List.filter_cons, hs]

/-! Invariants of the outer loop. -/

lemma findGroupsAux_two_le :
    ∀ (is ps : List ℕ), ∀ g ∈ findGroupsAux sim t ps is, 2 ≤ g.length := by
  intro is
  induction is with
  | nil => intro ps g hg; simp [findGroupsAux_nil] at hg
  | cons i rest ih =>
      intro ps g hg
      by_cases hi : i ∈ ps
      · rw [findGroupsAux_cons_mem sim t rest hi] at hg
        exact ih ps g hg
      · by_cases hne : (scanGroup sim t i (i :: ps) rest).1 = []
        · rw [findGroupsAux_cons_small sim t rest hi hne] at hg
          exact ih _ g hg
        · rw [findGroupsAux_cons_big sim t rest hi hne] at hg
          rcases List.mem_cons.mp hg with hg | hg
          · subst hg
            have hp : 0 < (scanGroup sim t i (i :: ps) rest).1.length :=
              List.length_pos.mpr hne
            simp only [List.length_cons]
            omega
          · exact ih _ g hg

lemma findGroupsAux_tail_sim :
    ∀ (is ps : List ℕ) (i : ℕ) (tl : List ℕ), (i :: tl) ∈ findGroupsAux sim t ps is →
      ∀ j ∈ tl, t ≤ sim i j := by
  intro is
  induction is with
  | nil => intro ps i tl hg; simp [findGroupsAux_nil] at hg
  | cons a rest ih =>
      intro ps i tl hg
      by_cases ha : a ∈ ps
      · rw [findGroupsAux_cons_mem sim t rest ha] at hg
        exact ih ps i tl hg
      · by_cases hne : (scanGroup sim t a (a :: ps) rest).1 = []
        · rw [findGroupsAux_cons_small sim t rest ha hne] at hg
          exact ih _ i tl hg
        · rw [findGroupsAux_cons_big sim t rest ha hne] at hg
          rcases List.mem_cons.mp hg with hg | hg
          · obtain ⟨he, ht⟩ := List.cons_eq_cons.mp hg
            intro j hj
            rw [he]
            exact scanGroup_mem_sim sim t a rest (a :: ps) j (ht ▸ hj)
          · exact ih _ i tl hg

lemma findGroupsAux_shape :
    ∀ (is ps : List ℕ), is.Sorted (· < ·) →
      (∀ g ∈ findGroupsAux sim t ps is, ∃ i tl, g = i :: tl ∧ i ∈ is ∧ ∀ j ∈ tl, i < j) ∧
      ((findGroupsAux sim t ps is).map List.headI).Sorted (· < ·) := by
  intro is
  induction is with
  | nil => intro ps _; simp [findGroupsAux_nil]
  | cons i rest ih =>
      intro ps hs
      have hlt : ∀ x ∈ rest, i < x := fun x hx => (List.sorted_cons.mp hs).1 x hx
      have hsr : rest.Sorted (· < ·) := (List.sorted_cons.mp hs).2
      by_cases hi : i ∈ ps
      · rw [findGroupsAux_cons_mem sim t rest hi]
        obtain ⟨ih1, ih2⟩ := ih ps hsr
        exact ⟨fun g hg => by
          obtain ⟨a, tl, he, ha, hj⟩ := ih1 g hg
          exact ⟨a, tl, he, List.mem_cons_of_mem _ ha, hj⟩, ih2⟩
      · by_cases hne : (scanGroup sim t i (i :: ps) rest).1 = []
        · rw [findGroupsAux_cons_small sim t rest hi hne]
          obtain ⟨ih1, ih2⟩ := ih _ hsr
          exact ⟨fun g hg => by
            obtain ⟨a, tl, he, ha, hj⟩ := ih1 g hg
            exact ⟨a, tl, he, List.mem_cons_of_mem _ ha, hj⟩, ih2⟩
        · rw [findGroupsAux_cons_big sim t rest hi hne]
          obtain ⟨ih1, ih2⟩ := ih _ hsr
          constructor
          · intro g hg
            rcases List.mem_cons.mp hg with hg | hg
            · refine ⟨i, (scanGroup sim t i (i :: ps) rest).1, hg, List.mem_cons_self i rest, ?_⟩
              intro j hj
              exact hlt j (scanGroup_subset sim t i rest (i :: ps) j hj)
            · obtain ⟨a, tl, he, ha, hj⟩ := ih1 g hg
              exact ⟨a, tl, he, List.mem_cons_of_mem _ ha, hj⟩
          · rw [List.map_cons]
            refine List.sorted_cons.mpr ⟨?_, ih2⟩
            intro b hb
            obtain ⟨g, hg, hbg⟩ := List.mem_map.mp hb
            obtain ⟨a, tl, he, ha, _⟩ := ih1 g hg
            have : g.headI = a := by rw [he]; rfl
            rw [← hbg, this]
            simp only [List.headI_cons]
            exact hlt a ha

lemma findGroupsAux_join :
    ∀ (is ps : List ℕ),
      (∀ x ∈ (findGroupsAux sim t ps is).flatten, x ∉ ps) ∧
      ((findGroupsAux sim t ps is).flatten).Nodup := by
  intro is
  induction is with
  | nil => intro ps; simp [findGroupsAux_nil]
  | cons i rest ih =>
      intro ps
      by_cases hi : i ∈ ps
      · rw [findGroupsAux_cons_mem sim t rest hi]
        exact ih ps
      · by_cases hne : (scanGroup sim t i (i :: ps) rest).1 = []
        · rw [findGroupsAux_cons_small sim t rest hi hne]
          obtain ⟨ih1, ih2⟩ := ih (scanGroup sim t i (i :: ps) rest).2
          refine ⟨fun x hx hxp => ?_, ih2⟩
          exact ih1 x hx ((scanGroup_mem_snd sim t i rest (i :: ps) x).mpr
            (Or.inl (List.mem_cons_of_mem _ hxp)))
        · rw [findGroupsAux_cons_big sim t rest hi hne]
          obtain ⟨ih1, ih2⟩ := ih (scanGroup sim t i (i :: ps) rest).2
          obtain ⟨hfresh, hnodup⟩ := scanGroup_fresh_nodup sim t i rest (i :: ps)
          rw [List.flatten_cons]
          constructor
          · intro x hx hxp
            rcases List.mem_append.mp hx with hx | hx
            · rcases List.mem_cons.mp hx with hx | hx
              · exact hi (hx ▸ hxp)
              · exact hfresh x hx (List.mem_cons_of_mem _ hxp)
            · exact ih1 x hx ((scanGroup_mem_snd sim t i rest (i :: ps) x).mpr
                (Or.inl (List.mem_cons_of_mem _ hxp)))
          · rw [List.nodup_append]
            refine ⟨?_, ih2, ?_⟩
            · refine List.nodup_cons.mpr ⟨fun hm => ?_, hnodup⟩
              exact hfresh i hm (List.mem_cons_self i ps)
            · intro x hx hxj
              have hxs : x ∈ (scanGroup sim t i (i :: ps) rest).2 := by
                rcases List.mem_cons.mp hx with hx | hx
                · exact (scanGroup_mem_snd sim t i rest (i :: ps) x).mpr
                    (Or.inl (hx ▸ List.mem_cons_self i ps))
                · exact (scanGroup_mem_snd sim t i rest (i :: ps) x).mpr (Or.inr hx)
              exact ih1 x hxj hxs

end Loops

/-! Symbolic evaluation of the loops on two- and three-record inputs, driven
by hypotheses that settle each threshold comparison. -/

section Eval

variable (sim : ℕ → ℕ → ℚ) (t : ℚ)

lemma scanGroup_eval_first (h01 : t ≤ sim 0 1) (h02 : ¬ t ≤ sim 0 2) :
    scanGroup sim t 0 [0] [1, 2] = ([1], [1, 0]) := by
  simp [scanGroup, h01, h02]

lemma scanGroup_eval_none (h01 : ¬ t ≤ sim 0 1) (h02 : ¬ t ≤ sim 0 2) :
    scanGroup sim t 0 [0] [1, 2] = ([], [0]) := by
  simp [scanGroup, h01, h02]

lemma findGroupsAux_eval_all (h01 : t ≤ sim 0 1) (h02 : t ≤ sim 0 2) :
    findGroupsAux sim t [] [0, 1, 2] = [[0, 1, 2]] := by
  simp [findGroupsAux, scanGroup, h01, h02]

lemma findGroupsAux_eval_first (h01 : t ≤ sim 0 1) (h02 : ¬ t ≤ sim 0 2) :
    findGroupsAux sim t [] [0, 1, 2] = [[0, 1]] := by
  simp [findGroupsAux, scanGroup, h01, h02]

lemma findGroupsAux_eval_second (h01 : ¬ t ≤ sim 0 1) (h02 : ¬ t ≤ sim 0 2)
    (h12 : t ≤ sim 1 2) :
    findGroupsAux sim t [] [0, 1, 2] = [[1, 2]] := by
  simp [findGroupsAux, scanGroup, h01, h02, h12]

lemma findGroupsAux_eval_two (h01 : t ≤ sim 0 1) :
    findGroupsAux sim t [] [0, 1] = [[0, 1]] := by
  simp [findGroupsAux, scanGroup, h01]

end Eval

/-! Concrete values of the similarity metric on the example records. -/

lemma sim_exZeros_exZeros : calculateSimilarity exZeros exZeros = 100 := by
  simp only [calculateSimilarity,
    (by decide : countDifferences exZeros exZeros = 0),
    (by decide : exZeros.length = 64)]
  norm_num

lemma sim_exZeros_exSix : calculateSimilarity exZeros exSix = 725 / 8 := by
  simp only [calculateSimilarity,
    (by decide : countDifferences exZeros exSix = 6),
    (by decide : exZeros.length = 64)]
  norm_num

lemma sim_exZeros_exTen : calculateSimilarity exZeros exTen = 675 / 8 := by
  simp only [calculateSimilarity,
    (by decide : countDifferences exZeros exTen = 10),
    (by decide : exZeros.length = 64)]
  norm_num

lemma sim_exSix_exTen : calculateSimilarity exSix exTen = 375 / 4 := by
  simp only [calculateSimilarity,
    (by decide : countDifferences exSix exTen = 4),
    (by decide : exSix.length = 64)]
  norm_num

lemma sim_exZeros_exFour : calculateSimilarity exZeros exFour = 375 / 4 := by
  simp only [calculateSimilarity,
    (by decide : countDifferences exZeros exFour = 4),
    (by decide : exZeros.length = 64)]
  norm_num

lemma sim_exZeros_exMid : calculateSimilarity exZeros exMid = 375 / 4 := by
  simp only [calculateSimilarity,
    (by decide : countDifferences exZeros exMid = 4),
    (by decide : exZeros.length = 64)]
  norm_num

lemma sim_exFour_exMid : calculateSimilarity exFour exMid = 175 / 2 := by
  simp only [calculateSimilarity,
    (by decide : countDifferences exFour exMid = 8),
    (by decide : exFour.length = 64)]
  norm_num

lemma findDuplicates_exPair_90 : findDuplicates exPair 90 = [[0, 1]] := by
  show findGroupsAux (fun i j => calculateSimilarity (exPair.getD i []) (exPair.getD j []))
    90 [] [0, 1] = [[0, 1]]
  refine findGroupsAux_eval_two _ 90 ?_
  show (90 : ℚ) ≤ calculateSimilarity exZeros exZeros
  rw [sim_exZeros_exZeros]
  norm_num

lemma findDuplicates_exListA_90 : findDuplicates exListA 90 = [[0, 1]] := by
  show findGroupsAux (fun i j => calculateSimilarity (exListA.getD i []) (exListA.getD j []))
    90 [] [0, 1, 2] = [[0, 1]]
  refine findGroupsAux_eval_first _ 90 ?_ ?_
  · show (90 : ℚ) ≤ calculateSimilarity exZeros exSix
    rw [sim_exZeros_exSix]
    norm_num
  · show ¬ (90 : ℚ) ≤ calculateSimilarity exZeros exTen
    rw [sim_exZeros_exTen]
    norm_num

lemma findDuplicates_exListA_93 : findDuplicates exListA 93 = [[1, 2]] := by
  show findGroupsAux (fun i j => calculateSimilarity (exListA.getD i []) (exListA.getD j []))
    93 [] [0, 1, 2] = [[1, 2]]
  refine findGroupsAux_eval_second _ 93 ?_ ?_ ?_
  · show ¬ (93 : ℚ) ≤ calculateSimilarity exZeros exSix
    rw [sim_exZeros_exSix]
    norm_num
  · show ¬ (93 : ℚ) ≤ calculateSimilarity exZeros exTen
    rw [sim_exZeros_exTen]
    norm_num
  · show (93 : ℚ) ≤ calculateSimilarity exSix exTen
    rw [sim_exSix_exTen]
    norm_num

lemma findDuplicates_exListB_90 : findDuplicates exListB 90 = [[0, 1, 2]] := by
  show findGroupsAux (fun i j => calculateSimilarity (exListB.getD i []) (exListB.getD j []))
    90 [] [0, 1, 2] = [[0, 1, 2]]
  refine findGroupsAux_eval_all _ 90 ?_ ?_
  · show (90 : ℚ) ≤ calculateSimilarity exZeros exFour
    rw [sim_exZeros_exFour]
    norm_num
  · show (90 : ℚ) ≤ calculateSimilarity exZeros exMid
    rw [sim_exZeros_exMid]
    norm_num

lemma firstSeedGroup_exListA_90 : firstSeedGroup exListA 90 = [0, 1] := by
  show 0 :: (scanGroup (fun i j => calculateSimilarity (exListA.getD i []) (exListA.getD j []))
    90 0 [0] [1, 2]).1 = [0, 1]
  rw [scanGroup_eval_first _ 90 ?h1 ?h2]
  case h1 =>
    show (90 : ℚ) ≤ calculateSimilarity exZeros exSix
    rw [sim_exZeros_exSix]
    norm_num
  case h2 =>
    show ¬ (90 : ℚ) ≤ calculateSimilarity exZeros exTen
    rw [sim_exZeros_exTen]
    norm_num

lemma firstSeedGroup_exListA_93 : firstSeedGroup exListA 93 = [0] := by
  show 0 :: (scanGroup (fun i j => calculateSimilarity (exListA.getD i []) (exListA.getD j []))
    93 0 [0] [1, 2]).1 = [0]
  rw [scanGroup_eval_none _ 93 ?h1 ?h2]
  case h1 =>
    show ¬ (93 : ℚ) ≤ calculateSimilarity exZeros exSix
    rw [sim_exZeros_exSix]
    norm_num
  case h2 =>
    show ¬ (93 : ℚ) ≤ calculateSimilarity exZeros exTen
    rw [sim_exZeros_exTen]
    norm_num

/-- C7: the clusterer never returns a group of size 1: every returned group
has at least two members, and an input of fewer than two records yields an
empty group list. -/
theorem findDuplicates_no_singleton_groups (l : List (List Char)) (t : ℚ) :
    (∀ g ∈ findDuplicates l t, 2 ≤ g.length) ∧ (l.length < 2 → findDuplicates l t = []) := by
  constructor
  · intro g hg
    exact findGroupsAux_two_le _ t _ _ g hg
  · intro hl
    rcases l with _ | ⟨a, _ | ⟨b, r⟩⟩
    · rfl
    · calc findDuplicates [a] t
          = findGroupsAux
              (fun i j => calculateSimilarity (([a] : List (List Char)).getD i []) ([a].getD j []))
              t [] (0 :: []) := rfl
        _ = findGroupsAux
              (fun i j => calculateSimilarity (([a] : List (List Char)).getD i []) ([a].getD j []))
              t [0] [] := findGroupsAux_cons_small _ t [] (by simp) rfl
        _ = [] := rfl
    · simp only [List.length_cons] at hl
      omega

/-- C7 witness: a single-record input produces no groups. -/
theorem findDuplicates_no_singleton_groups_witness : findDuplicates [exZeros] 90 = [] :=
  (findDuplicates_no_singleton_groups [exZeros] 90).2 (by simp)

/-- C5: in every returned group, every member after the seed has similarity at
least the threshold with the seed (membership is decided against the seed
only). -/
theorem findDuplicates_member_similar_to_seed (l : List (List Char)) (t : ℚ) (i : ℕ)
    (tl : List ℕ) (hg : (i :: tl) ∈ findDuplicates l t) :
    ∀ j ∈ tl, t ≤ calculateSimilarity (l.getD i []) (l.getD j []) :=
  findGroupsAux_tail_sim _ t _ _ i tl hg

/-- C5 witness: in the group produced for two identical fingerprints, the
second member is within threshold 90 of the seed. -/
theorem findDuplicates_member_similar_to_seed_witness :
    (90 : ℚ) ≤ calculateSimilarity (exPair.getD 0 []) (exPair.getD 1 []) :=
  findDuplicates_member_similar_to_seed exPair 90 0 [1]
    (by rw [findDuplicates_exPair_90]; simp) 1 (by simp)

/-- C6: in every returned group the first element is the earliest-occurring
record of the group (its position is below every other member's), and the
groups are listed in increasing order of their seeds' input positions. -/
theorem findDuplicates_seed_first_and_ordered (l : List (List Char)) (t : ℚ) :
    (∀ g ∈ findDuplicates l t, ∀ j ∈ g.tail, g.headI < j) ∧
    ((findDuplicates l t).map List.headI).Sorted (· < ·) := by
  obtain ⟨h1, h2⟩ := findGroupsAux_shape
    (fun i j => calculateSimilarity (l.getD i []) (l.getD j []))
    t (List.range l.length) [] (List.sorted_lt_range _)
  refine ⟨?_, h2⟩
  intro g hg j hj
  obtain ⟨a, tl, he, _, hlt⟩ := h1 g hg
  subst he
  exact hlt j (by simpa using hj)

/-- C6 witness: in the group for two identical fingerprints the seed position
precedes the member, and the group heads are sorted. -/
theorem findDuplicates_seed_first_and_ordered_witness :
    (([0, 1] : List ℕ).headI < 1) ∧
    ((findDuplicates exPair 90).map List.headI).Sorted (· < ·) :=
  ⟨(findDuplicates_seed_first_and_ordered exPair 90).1 [0, 1]
      (by rw [findDuplicates_exPair_90]; simp) 1 (by simp),
   (findDuplicates_seed_first_and_ordered exPair 90).2⟩

/-- C8: the returned groups are pairwise disjoint and repeat no record: the
concatenation of all groups lists each record position at most once. -/
theorem findDuplicates_records_disjoint (l : List (List Char)) (t : ℚ) :
    ((findDuplicates l t).flatten).Nodup :=
  (findGroupsAux_join _ t (List.range l.length) []).2

/-- C9 counterexample: at threshold 90 the input `exListB` produces the single
group [0, 1, 2], yet members 1 and 2 have similarity 87.5 < 90: pairwise
similarities within a group do not all reach the threshold. -/
theorem findDuplicates_pairwise_similarity_cex :
    findDuplicates exListB 90 = [[0, 1, 2]] ∧
    calculateSimilarity (exListB.getD 1 []) (exListB.getD 2 []) < 90 := by
  refine ⟨findDuplicates_exListB_90, ?_⟩
  show calculateSimilarity exFour exMid < 90
  rw [sim_exFour_exMid]
  norm_num

/-- C9 amended: within a returned group, the pairs whose similarity is
guaranteed to reach the threshold are exactly the pairs containing the seed:
for members x and y of one group with x the seed and y distinct from it,
similarity(x, y) is at least the threshold. -/
theorem findDuplicates_pair_with_seed_similar (l : List (List Char)) (t : ℚ) (g : List ℕ)
    (x y : ℕ) (hg : g ∈ findDuplicates l t) (hx : x = g.headI) (hy : y ∈ g) (hne : y ≠ x) :
    t ≤ calculateSimilarity (l.getD x []) (l.getD y []) := by
  rcases g with _ | ⟨a, tl⟩
  · simp at hy
  · have hx2 : x = a := by simpa using hx
    rw [hx2] at hne ⊢
    rcases List.mem_cons.mp hy with hy | hy
    · exact absurd hy hne
    · exact findGroupsAux_tail_sim _ t _ _ a tl hg y hy

/-- C9 amended witness: in the group [0, 1, 2] of `exListB`, the seed 0 and
member 2 are within threshold 90. -/
theorem findDuplicates_pair_with_seed_similar_witness :
    (90 : ℚ) ≤ calculateSimilarity (exListB.getD 0 []) (exListB.getD 2 []) :=
  findDuplicates_pair_with_seed_similar exListB 90 [0, 1, 2] 0 2
    (by rw [findDuplicates_exListB_90]; simp) rfl (by simp) (by simp)


/-- Helper facts about the index list scanned by the first seed. -/
lemma drop_one_range_nodup (n : ℕ) : ((List.range n).drop 1).Nodup :=
  List.Nodup.sublist (List.drop_sublist 1 _) (List.nodup_range n)

lemma mem_drop_one_range (n j : ℕ) (hj : j ∈ (List.range n).drop 1) :
    j ∉ ([0] : List ℕ) := by
  rcases n with _ | m
  · simp at hj
  · rw [List.range_succ_eq_map, List.drop_succ_cons, List.drop_zero] at hj
    simp only [List.mem_map] at hj
    obtain ⟨a, _, ha⟩ := hj
    simp [← ha]

/-- C1 counterexample: on `exListA`, raising the threshold from 90 to 93 moves
record 2 from ungrouped into a group (the group seeded at record 1), so the
clusterer is not monotone in the threshold. -/
theorem findDuplicates_threshold_monotonicity_cex :
    (90 : ℚ) ≤ 93 ∧ 2 ∈ (findDuplicates exListA 93).flatten ∧
      2 ∉ (findDuplicates exListA 90).flatten := by
  refine ⟨by norm_num, ?_, ?_⟩
  · rw [findDuplicates_exListA_93]
    simp
  · rw [findDuplicates_exListA_90]
    simp

/-- C1 amended: threshold monotonicity holds for the group seeded at the first
record: its members at a higher threshold are members at any lower threshold,
and whenever that candidate group has more than one member it is the first
group the clusterer returns.  Globally, monotonicity fails (see the
counterexample): a record dropped from an earlier group at the higher
threshold can seed a new group that captures records that were ungrouped at
the lower threshold. -/
theorem firstSeedGroup_threshold_monotone (l : List (List Char)) (t1 t2 : ℚ) (h : t1 ≤ t2) :
    (∀ x ∈ firstSeedGroup l t2, x ∈ firstSeedGroup l t1) ∧
    (∀ t : ℚ, 1 < (firstSeedGroup l t).length →
      ∃ gs, findDuplicates l t = firstSeedGroup l t :: gs) := by
  constructor
  · intro x hx
    rw [firstSeedGroup] at hx ⊢
    have hnd : ((List.range l.length).drop 1).Nodup := drop_one_range_nodup _
    have hfresh : ∀ j ∈ (List.range l.length).drop 1, j ∉ ([0] : List ℕ) :=
      fun j hj => mem_drop_one_range _ j hj
    rcases List.mem_cons.mp hx with hx | hx
    · subst hx
      exact List.mem_cons_self 0 _
    · rw [scanGroup_eq_filter _ t2 0 _ _ hnd hfresh, List.mem_filter] at hx
      refine List.mem_cons_of_mem _ ?_
      rw [scanGroup_eq_filter _ t1 0 _ _ hnd hfresh, List.mem_filter]
      refine ⟨hx.1, ?_⟩
      have hx2 := hx.2
      simp only [decide_eq_true_eq] at hx2 ⊢
      exact le_trans h hx2
  · intro t hlen
    rcases hn : l.length with _ | m
    · exfalso
      rw [firstSeedGroup, hn] at hlen
      simp [scanGroup_nil] at hlen
    · have hr : List.range l.length = 0 :: ((List.range l.length).drop 1) := by
        rw [hn, List.range_succ_eq_map]
        rfl
      have hne : (scanGroup
          (fun i j => calculateSimilarity (l.getD i []) (l.getD j []))
          t 0 [0] ((List.range l.length).drop 1)).1 ≠ [] := by
        intro he
        rw [firstSeedGroup, he] at hlen
        simp at hlen
      refine ⟨findGroupsAux
          (fun i j => calculateSimilarity (l.getD i []) (l.getD j [])) t
          (scanGroup (fun i j => calculateSimilarity (l.getD i []) (l.getD j []))
            t 0 [0] ((List.range l.length).drop 1)).2
          ((List.range l.length).drop 1), ?_⟩
      rw [findDuplicates, hr,
        findGroupsAux_cons_big _ t ((List.range l.length).drop 1) (by simp) hne]
      rfl

/-- C1 amended witness: on `exListA`, the first-seed group at threshold 90
contains the seed of the (singleton) first-seed candidate at 93, and at
threshold 90 that candidate group is indeed the first returned group. -/
theorem firstSeedGroup_threshold_monotone_witness :
    0 ∈ firstSeedGroup exListA 90 ∧
    ∃ gs, findDuplicates exListA 90 = firstSeedGroup exListA 90 :: gs :=
  ⟨(firstSeedGroup_threshold_monotone exListA 90 93 (by norm_num)).1 0
      (by rw [firstSeedGroup_exListA_93]; simp),
   (firstSeedGroup_threshold_monotone exListA 90 93 (by norm_num)).2 90
      (by rw [firstSeedGroup_exListA_90]; simp)⟩

/-- The count of differing positions agrees with the Hamming distance when
the two hashes have equal length. -/
lemma countDifferences_eq_hammingDistance :
    ∀ (h1 h2 : List Char), h1.length = h2.length →
      countDifferences h1 h2 = hammingDistance h1 h2 := by
  intro h1
  induction h1 with
  | nil => intro h2 he; simp [countDifferences, hammingDistance]
  | cons a as ih =>
      intro h2 he
      rcases h2 with _ | ⟨b, bs⟩
      · simp at he
      · have hlen : as.length = bs.length := by simpa using he
        have hstep : countDifferences (a :: as) (b :: bs) =
            countDifferences as bs + if a = b then 0 else 1 := by
          simp only [countDifferences, List.length_cons, List.range_succ_eq_map,
            List.countP_cons, List.countP_map, Function.comp_def,
            List.getElem?_cons_succ, List.getElem?_cons_zero]
          by_cases hab : a = b <;> simp [hab]
        have hstep2 : hammingDistance (a :: as) (b :: bs) =
            hammingDistance as bs + if a = b then 0 else 1 := by
          simp only [hammingDistance, List.zip_cons_cons, List.countP_cons]
          by_cases hab : a = b <;> simp [hab]
        rw [hstep, hstep2, ih bs hlen]

lemma countDifferences_le_length (h1 h2 : List Char) :
    countDifferences h1 h2 ≤ h1.length := by
  calc countDifferences h1 h2 ≤ (List.range h1.length).length := List.countP_le_length _
    _ = h1.length := List.length_range _

/-- C4: on equal-length 64-bit fingerprints, the similarity is
((length - d) / length) * 100 for d the Hamming distance, and it lies in
[0, 100]. -/
theorem calculateSimilarity_hamming_spec (h1 h2 : List Char)
    (e1 : h1.length = 64) (e2 : h2.length = 64) :
    calculateSimilarity h1 h2 = ((64 - (hammingDistance h1 h2 : ℚ)) / 64) * 100 ∧
    0 ≤ calculateSimilarity h1 h2 ∧ calculateSimilarity h1 h2 ≤ 100 := by
  have hcd : countDifferences h1 h2 = hammingDistance h1 h2 :=
    countDifferences_eq_hammingDistance h1 h2 (by rw [e1, e2])
  have hle : hammingDistance h1 h2 ≤ 64 := by
    have hb := countDifferences_le_length h1 h2
    rw [hcd, e1] at hb
    exact hb
  have hd0 : (0 : ℚ) ≤ (hammingDistance h1 h2 : ℚ) := Nat.cast_nonneg _
  have hd64 : ((hammingDistance h1 h2 : ℕ) : ℚ) ≤ 64 := by exact_mod_cast hle
  have heq : calculateSimilarity h1 h2 =
      ((64 - (hammingDistance h1 h2 : ℚ)) / 64) * 100 := by
    rw [calculateSimilarity, hcd, e1]
    norm_num
  refine ⟨heq, ?_, ?_⟩
  · rw [heq]
    exact mul_nonneg (div_nonneg (by linarith) (by norm_num)) (by norm_num)
  · rw [heq, div_mul_eq_mul_div, div_le_iff₀ (by norm_num : (0 : ℚ) < 64)]
    linarith

/-- C4 witness: the spec formula and the bounds hold at the concrete pair
(`exZeros`, `exSix`). -/
theorem calculateSimilarity_hamming_spec_witness :
    calculateSimilarity exZeros exSix =
      ((64 - (hammingDistance exZeros exSix : ℚ)) / 64) * 100 ∧
    0 ≤ calculateSimilarity exZeros exSix ∧ calculateSimilarity exZeros exSix ≤ 100 :=
  calculateSimilarity_hamming_spec exZeros exSix (by decide) (by decide)


/-! The fingerprint generator, related to the spec's per-sample description. -/

lemma sampleLuminance_zero (r g b a : ℕ) (rest : List ℕ) :
    sampleLuminance (r :: g :: b :: a :: rest) 0 =
      (r : ℚ) * (299 / 1000) + (g : ℚ) * (587 / 1000) + (b : ℚ) * (114 / 1000) := by
  have h0 : (4 : ℕ) * 0 = 0 := by norm_num
  have h1 : (4 : ℕ) * 0 + 1 = 1 := by norm_num
  have h2 : (4 : ℕ) * 0 + 2 = 2 := by norm_num
  rw [sampleLuminance, h0, h1, h2]
  rfl

lemma sampleLuminance_succ (r g b a : ℕ) (rest : List ℕ) (i : ℕ) :
    sampleLuminance (r :: g :: b :: a :: rest) (i + 1) = sampleLuminance rest i := by
  have h0 : (4 : ℕ) * (i + 1) = 4 * i + 1 + 1 + 1 + 1 := by ring
  have h1 : (4 : ℕ) * (i + 1) + 1 = 4 * i + 1 + 1 + 1 + 1 + 1 := by ring
  have h2 : (4 : ℕ) * (i + 1) + 2 = 4 * i + 2 + 1 + 1 + 1 + 1 := by ring
  rw [sampleLuminance, h2, h1, h0, sampleLuminance]
  simp only [List.getD_cons_succ]

/-- The grayscale loop computes exactly the per-sample luminances of the
spec, one for each complete RGBA quadruple. -/
lemma toGrayscale_eq :
    ∀ pixels : List ℕ,
      toGrayscale pixels = (List.range (pixels.length / 4)).map (sampleLuminance pixels)
  | [] => by norm_num [toGrayscale]
  | [r] => by norm_num [toGrayscale]
  | [r, g] => by norm_num [toGrayscale]
  | [r, g, b] => by norm_num [toGrayscale]
  | r :: g :: b :: a :: rest => by
      have ih := toGrayscale_eq rest
      have hlen : (r :: g :: b :: a :: rest).length / 4 = rest.length / 4 + 1 := by
        simp only [List.length_cons]
        omega
      calc toGrayscale (r :: g :: b :: a :: rest)
          = ((r : ℚ) * (299 / 1000) + (g : ℚ) * (587 / 1000) + (b : ℚ) * (114 / 1000))
              :: toGrayscale rest := rfl
        _ = sampleLuminance (r :: g :: b :: a :: rest) 0
              :: (List.range (rest.length / 4)).map (sampleLuminance rest) := by
              rw [ih, sampleLuminance_zero]
        _ = sampleLuminance (r :: g :: b :: a :: rest) 0
              :: (List.range (rest.length / 4)).map
                  (fun i => sampleLuminance (r :: g :: b :: a :: rest) (i + 1)) := by
              refine congrArg _ ?_
              exact (List.map_congr_left fun i _ =>
                (sampleLuminance_succ r g b a rest i).symm)
        _ = (List.range ((r :: g :: b :: a :: rest).length / 4)).map
              (sampleLuminance (r :: g :: b :: a :: rest)) := by
              rw [hlen, List.range_succ_eq_map, List.map_cons, List.map_map]
              simp [Function.comp_def]

/-- On a 256-byte RGBA buffer the hash is the mean-thresholded bit of each of
the 64 sample luminances, in scan order. -/
lemma generateImageHash_eq (pixels : List ℕ) (h : pixels.length = 256) :
    generateImageHash pixels =
      (List.range 64).map
        (fun i => if sampleLuminance pixels i ≥ meanLuminance pixels then '1' else '0') := by
  have h64 : pixels.length / 4 = 64 := by rw [h]
  simp only [generateImageHash, toGrayscale_eq, h64, List.map_map, List.length_map,
    List.length_range, Nat.cast_ofNat, meanLuminance]
  rfl

/-- C3: on a non-empty 8x8 RGBA grid (a 256-byte flat buffer) the hash has
exactly 64 bits, and bit i is '1' exactly when the luminance of sample i
(0.299 R + 0.587 G + 0.114 B) is at least the arithmetic mean luminance. -/
theorem generateImageHash_bits (pixels : List ℕ) (h : pixels.length = 256) :
    (generateImageHash pixels).length = 64 ∧
    ∀ i, i < 64 → (generateImageHash pixels)[i]? =
      some (if meanLuminance pixels ≤ sampleLuminance pixels i then '1' else '0') := by
  rw [generateImageHash_eq pixels h]
  constructor
  · simp
  · intro i hi
    rw [List.getElem?_map, List.getElem?_range hi]
    simp [ge_iff_le]

/-- C3 witness: the uniform grey image has a 64-bit hash whose first bit is
the mean comparison of sample 0. -/
theorem generateImageHash_bits_witness :
    (generateImageHash exPixA).length = 64 ∧
    (generateImageHash exPixA)[0]? =
      some (if meanLuminance exPixA ≤ sampleLuminance exPixA 0 then '1' else '0') :=
  ⟨(generateImageHash_bits exPixA (by simp [exPixA])).1,
   (generateImageHash_bits exPixA (by simp [exPixA])).2 0 (by norm_num)⟩

lemma getD_replicate (v n m : ℕ) (h : m < n) : (List.replicate n v).getD m 0 = v := by
  induction n generalizing m with
  | zero => omega
  | succ k ih =>
      rcases m with _ | m2
      · rfl
      · rw [List.replicate_succ, List.getD_cons_succ]
        exact ih m2 (by omega)

lemma sampleLuminance_replicate (v i : ℕ) (hi : i < 64) :
    sampleLuminance (List.replicate 256 v) i = (v : ℚ) := by
  rw [sampleLuminance, getD_replicate v 256 _ (by omega), getD_replicate v 256 _ (by omega),
    getD_replicate v 256 _ (by omega)]
  ring

/-- C10: an image whose 64 samples all have one luminance hashes to the
all-ones fingerprint (the greater-or-equal comparison admits the mean
itself), so two constant-luminance images of different colors get identical
fingerprints and similarity 100. -/
theorem constant_luminance_all_ones (p q : List ℕ) (c d : ℚ)
    (hp : p.length = 256) (hq : q.length = 256)
    (hc : ∀ i, i < 64 → sampleLuminance p i = c)
    (hd : ∀ i, i < 64 → sampleLuminance q i = d) :
    generateImageHash p = List.replicate 64 '1' ∧
    generateImageHash q = List.replicate 64 '1' ∧
    calculateSimilarity (generateImageHash p) (generateImageHash q) = 100 := by
  have key : ∀ (r : List ℕ) (e : ℚ), r.length = 256 →
      (∀ i, i < 64 → sampleLuminance r i = e) →
      generateImageHash r = List.replicate 64 '1' := by
    intro r e hr he
    rw [generateImageHash_eq r hr]
    have hconst : (List.range 64).map (sampleLuminance r) = List.replicate 64 e := by
      refine List.eq_replicate_iff.mpr ⟨by simp, ?_⟩
      intro x hx
      obtain ⟨i, hi, hxi⟩ := List.mem_map.mp hx
      rw [← hxi]
      exact he i (List.mem_range.mp hi)
    have hmean : meanLuminance r = e := by
      rw [meanLuminance, hconst, List.sum_replicate, nsmul_eq_mul]
      norm_num
    have hbits : ∀ i ∈ List.range 64,
        (if sampleLuminance r i ≥ meanLuminance r then '1' else '0') = '1' := by
      intro i hi
      rw [hmean, he i (List.mem_range.mp hi)]
      simp
    rw [List.map_congr_left hbits]
    simp
  have hp1 := key p c hp hc
  have hq1 := key q d hq hd
  refine ⟨hp1, hq1, ?_⟩
  rw [hp1, hq1]
  simp only [calculateSimilarity,
    (by decide : countDifferences (List.replicate 64 '1') (List.replicate 64 '1') = 0),
    (by decide : (List.replicate 64 '1').length = 64)]
  norm_num

/-- C10 witness: the two uniform grey images of different brightness (7 and
50) both hash to all ones and compare at similarity 100. -/
theorem constant_luminance_all_ones_witness :
    generateImageHash exPixA = List.replicate 64 '1' ∧
    generateImageHash exPixB = List.replicate 64 '1' ∧
    calculateSimilarity (generateImageHash exPixA) (generateImageHash exPixB) = 100 :=
  constant_luminance_all_ones exPixA exPixB ((7 : ℕ) : ℚ) ((50 : ℕ) : ℚ)
    (by simp [exPixA]) (by simp [exPixB])
    (fun i hi => sampleLuminance_replicate 7 i hi)
    (fun i hi => sampleLuminance_replicate 50 i hi)

/-! The batch handler. -/

lemma hashBatch_eq_none (files : List (ℕ × Option (List Char)))
    (h : ∃ ident, (ident, (none : Option (List Char))) ∈ files) :
    hashBatch files = none := by
  induction files with
  | nil =>
      obtain ⟨ident, hm⟩ := h
      simp at hm
  | cons f rest ih =>
      obtain ⟨ident, hm⟩ := h
      rcases f with ⟨fid, fo⟩
      rcases fo with _ | fh
      · rfl
      · rcases List.mem_cons.mp hm with he | hm2
        · simp at he
        · show (hashBatch rest).map (fun tl => (fid, fh) :: tl) = none
          rw [ih ⟨ident, hm2⟩]
          rfl

/-- C2 counterexample: on the five-image batch with a decode failure at the
third image, the handler commits nothing: the four decodable images are not
added to the state (so none of them is fingerprinted into the visible batch)
and no clustering result is produced. -/
theorem handleFiles_isolation_cex :
    handleFiles ⟨[], []⟩ exBatch = ⟨[], []⟩ ∧
    (handleFiles ⟨[], []⟩ exBatch).images.length ≠ 4 := by
  constructor
  · rfl
  · simp [show handleFiles ⟨[], []⟩ exBatch = ⟨[], []⟩ from rfl]

/-- C2 amended: a decode failure on any image in the batch makes the handler
take the catch path and leave the component state (records and groups)
exactly as it was: the whole batch is discarded, clustering is not re-run,
and no per-identifier report is produced (the source only alerts
generically). -/
theorem handleFiles_failure_preserves_state (st : FinderState)
    (files : List (ℕ × Option (List Char)))
    (h : ∃ ident, (ident, (none : Option (List Char))) ∈ files) :
    handleFiles st files = st := by
  obtain ⟨ident, hm⟩ := h
  have hne : files ≠ [] := List.ne_nil_of_mem hm
  simp [handleFiles, hashBatch_eq_none files ⟨ident, hm⟩, hne]

/-- C2 amended witness: a batch with a failing third image leaves a non-empty
prior state untouched. -/
theorem handleFiles_failure_preserves_state_witness :
    handleFiles ⟨[(9, exZeros)], [[0]]⟩ exBatch = ⟨[(9, exZeros)], [[0]]⟩ :=
  handleFiles_failure_preserves_state _ _ ⟨3, by decide⟩

end DuplicateFinder
